import Mathlib

/-!
# Verification of the `WorkflowMonitor` session/step registry

Shallow embedding of `src/agent/monitoring.py` (class `WorkflowMonitor` with the
`WorkflowStep` and `WorkflowSession` dataclasses) and proofs of the specified
properties of the registry.

Modelling conventions:
* `datetime.now()` is impure; every mutating operation therefore takes the
  current time as an explicit `now : Nat` argument, and `datetime` values are
  `Nat` (ordered as datetimes are).  `isoformat` is modelled as an injective
  rendering of the timestamp to a string.
* Python's `Dict[str, WorkflowSession]` preserves insertion order, and
  assignment to an existing key replaces the value in place; `dictInsert`/
  `dictGet?` model this on an association list.
* Arbitrary Python values (`Any` results) are modelled by `PyVal`, with
  Python truthiness (`PyVal.truthy`) and `str(...)` (`PyVal.pyStr`).
* A raised exception in a callback is an `Except.error`; the `try/except`
  inside `_notify_subscribers` catches each callback's exception and keeps
  iterating, so `notify_subscribers` returns the per-callback outcome list and
  never propagates an error to its caller.
* The unguarded dictionary lookup `self.sessions[self.active_session_id]`
  raises `KeyError` when the key is absent; operations therefore return
  `Option`, with `none` marking an uncaught `KeyError`.
* The guard `if not self.active_session_id` is Python truthiness on an
  `Optional[str]`: it treats both `None` and the empty string as "no active
  session" (`effectiveActive`).
-/

/-- A Python value, as stored in `result` / `final_result` fields (`Any`). -/
inductive PyVal where
  | none
  | bool (b : Bool)
  | int (n : Int)
  | str (s : String)
  | list (elems : List PyVal)

/-- Python truthiness of a `PyVal` (`bool(v)`). -/
def PyVal.truthy : PyVal → Bool
  | .none => false
  | .bool b => b
  | .int n => n != 0
  | .str s => s != ""
  | .list elems => !elems.isEmpty

mutual

/-- Python `str(v)`: the display-string form of a value. -/
def PyVal.pyStr : PyVal → String
  | .none => "None"
  | .bool true => "True"
  | .bool false => "False"
  | .int n => toString n
  | .str s => s
  | .list elems => "[" ++ pyStrList elems ++ "]"

/-- Display of the elements of a Python list, comma separated. -/
def pyStrList : List PyVal → String
  | [] => ""
  | [v] => v.pyStr
  | v :: w :: rest => v.pyStr ++ ", " ++ pyStrList (w :: rest)

end

/-- Dataclass `WorkflowStep` of `monitoring.py`. -/
structure WorkflowStep where
  agent_name : String
  step_name : String
  status : String
  start_time : Nat
  end_time : Option Nat
  result : PyVal
  error : Option String

/-- Dataclass `WorkflowSession` of `monitoring.py` (after `__post_init__`,
`steps` is always a list). -/
structure WorkflowSession where
  session_id : String
  user_prompt : String
  start_time : Nat
  end_time : Option Nat
  status : String
  steps : List WorkflowStep
  final_result : PyVal

/-- The `(event_type, data)` pairs passed to `_notify_subscribers`; each
constructor is one of the six event types with its payload. -/
inductive Event where
  | session_started (session : WorkflowSession)
  | step_started (session_id : String) (step : WorkflowStep)
  | step_completed (session_id : String) (step : WorkflowStep)
  | step_error (session_id : String) (step : WorkflowStep)
  | session_completed (session : WorkflowSession)
  | session_error (session : WorkflowSession) (error : String)

/-- A subscriber callback: given the event it either returns normally
(`Except.ok`) or raises (`Except.error`). -/
def Callback : Type := Event → Except String Unit

/-- `WorkflowMonitor.__init__`: the session table (insertion-ordered dict),
the active-session pointer and the subscriber list.  The unused
`update_queue` field of the source (a `queue.Queue` that no method of the
module ever touches) is omitted. -/
structure WorkflowMonitor where
  sessions : List (String × WorkflowSession)
  active_session_id : Option String
  subscribers : List Callback

/-- A fresh registry, as built by `WorkflowMonitor()`. -/
def freshMonitor : WorkflowMonitor :=
  { sessions := [], active_session_id := none, subscribers := [] }

/-- Python dict lookup `d.get(k)` on an insertion-ordered association list. -/
def dictGet? {α : Type} : List (String × α) → String → Option α
  | [], _ => none
  | (k', v) :: rest, k => if k' = k then some v else dictGet? rest k

/-- Python dict assignment `d[k] = v`: replaces the value in place if the key
exists (keeping its position), otherwise appends. -/
def dictInsert {α : Type} : List (String × α) → String → α → List (String × α)
  | [], k, v => [(k, v)]
  | (k', v') :: rest, k, v =>
      if k' = k then (k, v) :: rest else (k', v') :: dictInsert rest k v

/-- In-place mutation of the last element of a Python list
(`lst[-1].field = ...`): apply `f` to the last element, keep the rest. -/
def updateLast {α : Type} (f : α → α) : List α → List α
  | [] => []
  | [x] => [f x]
  | x :: y :: rest => x :: updateLast f (y :: rest)

/-- The guard `if not self.active_session_id: return` under Python truthiness:
`None` and the empty string both count as "no active session". -/
def effectiveActive (m : WorkflowMonitor) : Option String :=
  match m.active_session_id with
  | none => none
  | some sid => if sid = "" then none else some sid

/-- `_notify_subscribers`: iterate the subscriber list, invoking each callback
with the event; the `try/except Exception` around the call catches a raising
callback (its exception becomes a recorded `Except.error` outcome, as the
source merely prints it) and the loop continues with the next subscriber.
Returns the per-callback outcomes in subscription order; it never propagates
an exception to the registry operation that triggered it. -/
def notify_subscribers : List Callback → Event → List (Except String Unit)
  | [], _ => []
  | cb :: rest, ev =>
    match cb ev with
    | Except.ok u => Except.ok u :: notify_subscribers rest ev
    | Except.error e => Except.error e :: notify_subscribers rest ev

/-- The `WorkflowSession(...)` constructed by `start_session`: `running`
status, empty step list, no end time, final result unset. -/
def newSession (session_id user_prompt : String) (now : Nat) : WorkflowSession :=
  { session_id := session_id, user_prompt := user_prompt, start_time := now,
    end_time := none, status := "running", steps := [],
    final_result := PyVal.none }

/-- `WorkflowMonitor.start_session`: create a running session with no steps,
register it under `session_id` (overwriting any existing entry), make it the
active session, fire `session_started`, and return the session. -/
def WorkflowMonitor.start_session (m : WorkflowMonitor)
    (session_id user_prompt : String) (now : Nat) :
    WorkflowMonitor × WorkflowSession × List Event :=
  let session : WorkflowSession := newSession session_id user_prompt now
  ({ m with sessions := dictInsert m.sessions session_id session,
            active_session_id := some session_id },
   session, [Event.session_started session])

/-- The `WorkflowStep(...)` constructed by `start_step`: fresh `running` step,
no end time, result and error unset. -/
def newStep (agent_name step_name : String) (now : Nat) : WorkflowStep :=
  { agent_name := agent_name, step_name := step_name, status := "running",
    start_time := now, end_time := none, result := PyVal.none, error := none }

/-- The in-place mutation `complete_step` performs on the current (last) step:
status `completed`, end time stamped, result stored; `error` is NOT touched. -/
def completeStepUpdate (result : PyVal) (now : Nat) (st : WorkflowStep) :
    WorkflowStep :=
  { st with status := "completed", end_time := some now, result := result }

/-- The in-place mutation `error_step` performs on the current (last) step:
status `error`, end time stamped, message stored verbatim in `error`. -/
def errorStepUpdate (error : String) (now : Nat) (st : WorkflowStep) :
    WorkflowStep :=
  { st with status := "error", end_time := some now, error := some error }

/-- The mutation `complete_session` performs on the active session. -/
def completeSessionUpdate (final_result : PyVal) (now : Nat)
    (s : WorkflowSession) : WorkflowSession :=
  { s with
      status := "completed", end_time := some now,
      final_result := final_result }

/-- The mutation `error_session` performs on the active session: status and
end time only — the error message is not stored on the session. -/
def errorSessionUpdate (now : Nat) (s : WorkflowSession) : WorkflowSession :=
  { s with status := "error", end_time := some now }

/-- `WorkflowMonitor.start_step`: no-op when there is no (truthy) active
session; otherwise the unguarded lookup `self.sessions[self.active_session_id]`
(`none` = `KeyError`), then append a fresh `running` step — with no check that
the previous step is terminal — and fire `step_started`. -/
def WorkflowMonitor.start_step (m : WorkflowMonitor)
    (agent_name step_name : String) (now : Nat) :
    Option (WorkflowMonitor × List Event) :=
  match effectiveActive m with
  | none => some (m, [])
  | some sid =>
    match dictGet? m.sessions sid with
    | none => none
    | some session =>
      let step : WorkflowStep := newStep agent_name step_name now
      let session' : WorkflowSession :=
        { session with steps := session.steps ++ [step] }
      some ({ m with sessions := dictInsert m.sessions sid session' },
            [Event.step_started sid step])

/-- `WorkflowMonitor.complete_step`: no-op when no active session or the
session has no steps (`if session.steps:`); otherwise mutate the last step to
`completed` with end time and result — even if it was already terminal — and
fire `step_completed` with the mutated step. -/
def WorkflowMonitor.complete_step (m : WorkflowMonitor) (result : PyVal)
    (now : Nat) : Option (WorkflowMonitor × List Event) :=
  match effectiveActive m with
  | none => some (m, [])
  | some sid =>
    match dictGet? m.sessions sid with
    | none => none
    | some session =>
      match session.steps.getLast? with
      | none => some (m, [])
      | some last =>
        let f : WorkflowStep → WorkflowStep := completeStepUpdate result now
        let session' : WorkflowSession :=
          { session with steps := updateLast f session.steps }
        some ({ m with sessions := dictInsert m.sessions sid session' },
              [Event.step_completed sid (f last)])

/-- `WorkflowMonitor.error_step`: like `complete_step` but the last step gets
status `error` and the message stored verbatim in its `error` field; fires
`step_error` with the mutated step. -/
def WorkflowMonitor.error_step (m : WorkflowMonitor) (error : String)
    (now : Nat) : Option (WorkflowMonitor × List Event) :=
  match effectiveActive m with
  | none => some (m, [])
  | some sid =>
    match dictGet? m.sessions sid with
    | none => none
    | some session =>
      match session.steps.getLast? with
      | none => some (m, [])
      | some last =>
        let f : WorkflowStep → WorkflowStep := errorStepUpdate error now
        let session' : WorkflowSession :=
          { session with steps := updateLast f session.steps }
        some ({ m with sessions := dictInsert m.sessions sid session' },
              [Event.step_error sid (f last)])

/-- `WorkflowMonitor.complete_session`: mark the active session `completed`
with end time and final result, fire `session_completed`, then clear the
active-session pointer. -/
def WorkflowMonitor.complete_session (m : WorkflowMonitor) (final_result : PyVal)
    (now : Nat) : Option (WorkflowMonitor × List Event) :=
  match effectiveActive m with
  | none => some (m, [])
  | some sid =>
    match dictGet? m.sessions sid with
    | none => none
    | some session =>
      let session' : WorkflowSession := completeSessionUpdate final_result now session
      some ({ m with sessions := dictInsert m.sessions sid session',
                     active_session_id := none },
            [Event.session_completed session'])

/-- `WorkflowMonitor.error_session`: mark the active session `error` with end
time — note the message is NOT stored anywhere on the session (the dataclass
has no field for it); it is only passed to subscribers in the `session_error`
payload.  Clears the active-session pointer. -/
def WorkflowMonitor.error_session (m : WorkflowMonitor) (error : String)
    (now : Nat) : Option (WorkflowMonitor × List Event) :=
  match effectiveActive m with
  | none => some (m, [])
  | some sid =>
    match dictGet? m.sessions sid with
    | none => none
    | some session =>
      let session' : WorkflowSession := errorSessionUpdate now session
      some ({ m with sessions := dictInsert m.sessions sid session',
                     active_session_id := none },
            [Event.session_error session' error])

/-- `WorkflowMonitor.get_session`: point lookup, `None` when absent. -/
def WorkflowMonitor.get_session (m : WorkflowMonitor) (session_id : String) :
    Option WorkflowSession :=
  dictGet? m.sessions session_id

/-- Stable descending insertion by `start_time`: an element is placed before
the first element with a strictly smaller key, after all elements with a
greater-or-equal key that precede it. -/
def insertDesc (s : WorkflowSession) : List WorkflowSession → List WorkflowSession
  | [] => [s]
  | t :: ts => if t.start_time ≤ s.start_time then s :: t :: ts else t :: insertDesc s ts

/-- `sessions.sort(key=lambda x: x.start_time, reverse=True)`: Python's sort is
stable, and with `reverse=True` equal keys keep their original (insertion)
order; `sortSessions` is the stable descending insertion sort, which produces
the same list as any stable descending sort. -/
def sortSessions (l : List WorkflowSession) : List WorkflowSession :=
  l.foldr insertDesc []

/-- `WorkflowMonitor.get_recent_sessions`: list the table's values in
insertion order, sort by start time descending (stably), take `limit`. -/
def WorkflowMonitor.get_recent_sessions (m : WorkflowMonitor) (limit : Nat) :
    List WorkflowSession :=
  (sortSessions (m.sessions.map Prod.snd)).take limit

/-- `WorkflowMonitor.subscribe`: append a callback to the subscriber list. -/
def WorkflowMonitor.subscribe (m : WorkflowMonitor) (callback : Callback) :
    WorkflowMonitor :=
  { m with subscribers := m.subscribers ++ [callback] }

/-- `datetime.isoformat()`, abstracted: an injective rendering of the
timestamp as a string (the exact ISO-8601 text is irrelevant to the claims;
what matters is that a set timestamp renders as a string and an unset one as
null). -/
def isoformat (t : Nat) : String :=
  "1970-01-01T00:00:" ++ toString t

/-- The plain dictionary produced by `_step_to_dict`. -/
structure StepDict where
  agent_name : String
  step_name : String
  status : String
  start_time : Option String
  end_time : Option String
  result : Option String
  error : Option String

/-- The plain dictionary produced by `_session_to_dict`. -/
structure SessionDict where
  session_id : String
  user_prompt : String
  start_time : Option String
  end_time : Option String
  status : String
  steps : List StepDict
  final_result : Option String

/-- `WorkflowMonitor._step_to_dict`.  `start_time` is a `datetime` (always
truthy, hence always rendered); `end_time` is rendered when set, null
otherwise; `result` is `str(step.result) if step.result else None` — Python
truthiness, so any falsy result renders as null; `error` is passed through
verbatim. -/
def step_to_dict (step : WorkflowStep) : StepDict :=
  { agent_name := step.agent_name,
    step_name := step.step_name,
    status := step.status,
    start_time := some (isoformat step.start_time),
    end_time := match step.end_time with
      | some t => some (isoformat t)
      | none => none,
    result := if step.result.truthy then some step.result.pyStr else none,
    error := step.error }

/-- `WorkflowMonitor._session_to_dict`: note there is no field at all for an
error message — `error_session`'s message is not part of the serialized view. -/
def session_to_dict (session : WorkflowSession) : SessionDict :=
  { session_id := session.session_id,
    user_prompt := session.user_prompt,
    start_time := some (isoformat session.start_time),
    end_time := match session.end_time with
      | some t => some (isoformat t)
      | none => none,
    status := session.status,
    steps := session.steps.map step_to_dict,
    final_result := if session.final_result.truthy
      then some session.final_result.pyStr else none }

/-- One registry operation together with its arguments and the time at which
it is invoked (`complete_step()` with no argument is `complete_step PyVal.none`,
matching the Python default `result=None`). -/
inductive Op where
  | start_session (session_id user_prompt : String) (now : Nat)
  | start_step (agent_name step_name : String) (now : Nat)
  | complete_step (result : PyVal) (now : Nat)
  | error_step (error : String) (now : Nat)
  | complete_session (final_result : PyVal) (now : Nat)
  | error_session (error : String) (now : Nat)

/-- Whether the operation is `start_session` (the only operation that can
overwrite an existing registry entry). -/
def Op.isStartSession : Op → Bool
  | .start_session _ _ _ => true
  | _ => false

/-- Whether the operation is `start_step`. -/
def Op.isStartStep : Op → Bool
  | .start_step _ _ _ => true
  | _ => false

/-- Apply one registry operation; `none` is an uncaught `KeyError` from the
unguarded session-table lookup.  The event list is exactly what the source
passes to `_notify_subscribers`. -/
def applyOp (m : WorkflowMonitor) : Op → Option (WorkflowMonitor × List Event)
  | .start_session sid prompt now =>
      let r := m.start_session sid prompt now
      some (r.1, r.2.2)
  | .start_step agent step now => m.start_step agent step now
  | .complete_step result now => m.complete_step result now
  | .error_step e now => m.error_step e now
  | .complete_session r now => m.complete_session r now
  | .error_session e now => m.error_session e now

/-- Run a sequence of registry operations; `none` as soon as one raises. -/
def runOps : WorkflowMonitor → List Op → Option WorkflowMonitor
  | m, [] => some m
  | m, op :: rest =>
    match applyOp m op with
    | some (m', _) => runOps m' rest
    | none => none

/-! ## Basic lemmas about the dictionary and list helpers -/

theorem dictGet?_insert_self {α : Type} (d : List (String × α)) (k : String) (v : α) :
    dictGet? (dictInsert d k v) k = some v := by
  induction d with
  | nil => simp [dictInsert, dictGet?]
  | cons p rest ih =>
    obtain ⟨k', v'⟩ := p
    by_cases h : k' = k
    · subst h
      simp [dictInsert, dictGet?]
    · simp [dictInsert, dictGet?, h, ih]

theorem dictGet?_insert_ne {α : Type} (d : List (String × α)) (k k' : String) (v : α)
    (h : k' ≠ k) : dictGet? (dictInsert d k v) k' = dictGet? d k' := by
  induction d with
  | nil =>
    simp [dictInsert, dictGet?, Ne.symm h]
  | cons p rest ih =>
    obtain ⟨a, b⟩ := p
    by_cases ha : a = k
    · subst ha
      have hak' : a ≠ k' := Ne.symm h
      simp [dictInsert, dictGet?, hak', Ne.symm h]
    · simp only [dictInsert, if_neg ha]
      by_cases hak' : a = k'
      · simp [dictGet?, hak']
      · simp [dictGet?, hak', ih]

theorem all_dictInsert {α : Type} (d : List (String × α)) (k : String) (v : α)
    (p : String × α → Bool) (hd : d.all p = true) (hv : p (k, v) = true) :
    (dictInsert d k v).all p = true := by
  induction d with
  | nil => simp [dictInsert, hv]
  | cons q rest ih =>
    obtain ⟨a, b⟩ := q
    simp only [List.all_cons, Bool.and_eq_true] at hd
    by_cases h : a = k
    · subst h
      simp [dictInsert, List.all_cons, hv, hd.2]
    · simp [dictInsert, h, List.all_cons, hd.1, ih hd.2]

theorem length_updateLast {α : Type} (f : α → α) (l : List α) :
    (updateLast f l).length = l.length := by
  induction l with
  | nil => rfl
  | cons x xs ih =>
    cases xs with
    | nil => rfl
    | cons y ys =>
      simp only [updateLast, List.length_cons] at ih ⊢
      omega

theorem getElem?_updateLast {α : Type} (f : α → α) (l : List α) (i : Nat)
    (h : i + 1 < l.length) : (updateLast f l)[i]? = l[i]? := by
  induction l generalizing i with
  | nil => rfl
  | cons x xs ih =>
    cases xs with
    | nil => simp at h
    | cons y ys =>
      cases i with
      | zero =>
        have h1 : updateLast f (x :: y :: ys) = x :: updateLast f (y :: ys) := rfl
        rw [h1, List.getElem?_cons_zero, List.getElem?_cons_zero]
      | succ j =>
        have hj : j + 1 < (y :: ys).length := by
          simp only [List.length_cons] at h ⊢
          omega
        have h1 : updateLast f (x :: y :: ys) = x :: updateLast f (y :: ys) := rfl
        rw [h1, List.getElem?_cons_succ, List.getElem?_cons_succ]
        exact ih j hj

theorem getLast?_updateLast {α : Type} (f : α → α) (l : List α) :
    (updateLast f l).getLast? = l.getLast?.map f := by
  induction l with
  | nil => rfl
  | cons x xs ih =>
    cases xs with
    | nil => rfl
    | cons y ys =>
      have h1 : updateLast f (x :: y :: ys) = x :: updateLast f (y :: ys) := rfl
      rw [h1]
      cases hu : updateLast f (y :: ys) with
      | nil =>
        exfalso
        have hl := length_updateLast f (y :: ys)
        rw [hu] at hl
        simp at hl
      | cons a as =>
        rw [List.getLast?_cons_cons, ← hu, ih, List.getLast?_cons_cons]

theorem dropLast_updateLast {α : Type} (f : α → α) (l : List α) :
    (updateLast f l).dropLast = l.dropLast := by
  induction l with
  | nil => rfl
  | cons x xs ih =>
    cases xs with
    | nil => rfl
    | cons y ys =>
      have h1 : updateLast f (x :: y :: ys) = x :: updateLast f (y :: ys) := rfl
      rw [h1]
      cases hu : updateLast f (y :: ys) with
      | nil =>
        exfalso
        have hl := length_updateLast f (y :: ys)
        rw [hu] at hl
        simp at hl
      | cons a as =>
        have h2 : (x :: a :: as).dropLast = x :: (a :: as).dropLast := rfl
        have h3 : (x :: y :: ys).dropLast = x :: (y :: ys).dropLast := rfl
        rw [h2, ← hu, ih, h3]

theorem all_updateLast {α : Type} (f : α → α) (p : α → Bool) (l : List α)
    (hl : l.all p = true) (hf : ∀ x, p (f x) = true) :
    (updateLast f l).all p = true := by
  induction l with
  | nil => rfl
  | cons x xs ih =>
    cases xs with
    | nil => simp [updateLast, hf x]
    | cons y ys =>
      simp only [List.all_cons, Bool.and_eq_true] at hl
      obtain ⟨hx, hy, hys⟩ := hl
      have hys' : (y :: ys).all p = true := by
        rw [List.all_cons, hy, hys]
        rfl
      have h1 : updateLast f (x :: y :: ys) = x :: updateLast f (y :: ys) := rfl
      rw [h1, List.all_cons, hx, ih hys']
      rfl

/-! ## Sample fixtures used by concrete witnesses and counterexamples -/

/-- A step as produced by `start_step` at time 1 and completed at time 2. -/
def sampleOkStep : WorkflowStep :=
  { agent_name := "coder", step_name := "generate", status := "completed",
    start_time := 1, end_time := some 2, result := PyVal.int 7, error := none }

/-- A step as produced by `start_step` at time 2 and errored at time 3. -/
def sampleErrStep : WorkflowStep :=
  { agent_name := "qa", step_name := "review", status := "error",
    start_time := 2, end_time := some 3, result := PyVal.none,
    error := some "boom" }

/-- A two-step session: one completed step, one errored step. -/
def sampleSession : WorkflowSession :=
  { session_id := "s1", user_prompt := "build a site", start_time := 0,
    end_time := some 4, status := "error", steps := [sampleOkStep, sampleErrStep],
    final_result := PyVal.none }

/-! ## C6 — step operations on a fresh registry are silent no-ops -/

/-- **C6**: on a fresh registry where no session was ever started, calling
`start_step`, `complete_step` or `error_step` does not raise (the result is
`some`, not a `KeyError`), stores no session and creates no step (the state is
still `freshMonitor`), and fires no notification (the event list is empty);
afterwards `get_recent_sessions 10` returns the empty sequence. -/
theorem c6_fresh_registry_noop (agent step : String) (r : PyVal) (e : String) (t : Nat) :
    applyOp freshMonitor (Op.start_step agent step t) = some (freshMonitor, []) ∧
    applyOp freshMonitor (Op.complete_step r t) = some (freshMonitor, []) ∧
    applyOp freshMonitor (Op.error_step e t) = some (freshMonitor, []) ∧
    freshMonitor.get_recent_sessions 10 = [] :=
  ⟨rfl, rfl, rfl, rfl⟩

/-! ## C10 — falsy results serialize to null -/

/-- **C10**: in the serialized view, a step result or session final result
that is falsy under Python truthiness (`0`, `""`, `False`, `[]`, `None`, ...)
renders as null, indistinguishable from an absent (`None`) result, because
`_step_to_dict` / `_session_to_dict` render `str(x) if x else None`; only a
truthy value is rendered as its display string. -/
theorem c10_falsy_result_null (st : WorkflowStep) (s : WorkflowSession) (v : PyVal)
    (h : v.truthy = false) :
    (step_to_dict { st with result := v }).result = none ∧
    step_to_dict { st with result := v } = step_to_dict { st with result := PyVal.none } ∧
    (session_to_dict { s with final_result := v }).final_result = none ∧
    session_to_dict { s with final_result := v }
      = session_to_dict { s with final_result := PyVal.none } ∧
    (∀ w : PyVal, w.truthy = true →
      (step_to_dict { st with result := w }).result = some w.pyStr) := by
  have hn : PyVal.none.truthy = false := rfl
  refine ⟨?_, ?_, ?_, ?_, ?_⟩
  · simp [step_to_dict, h]
  · simp [step_to_dict, h, hn]
  · simp [session_to_dict, h]
  · simp [session_to_dict, h, hn]
  · intro w hw
    simp [step_to_dict, hw]

/-- Witness for C10 at the concrete falsy values `0`, `""`, `False` and `[]`:
each serializes to a null result, equal to serializing an absent result. -/
theorem c10_falsy_result_null_witness :
    (PyVal.int 0).truthy = false ∧
    (step_to_dict { sampleOkStep with result := PyVal.int 0 }).result = none ∧
    step_to_dict { sampleOkStep with result := PyVal.str "" }
      = step_to_dict { sampleOkStep with result := PyVal.none } ∧
    (session_to_dict { sampleSession with final_result := PyVal.bool false }).final_result
      = none ∧
    session_to_dict { sampleSession with final_result := PyVal.list [] }
      = session_to_dict { sampleSession with final_result := PyVal.none } ∧
    (step_to_dict { sampleOkStep with result := PyVal.int 7 }).result = some "7" :=
  ⟨by decide,
   (c10_falsy_result_null sampleOkStep sampleSession (PyVal.int 0) (by decide)).1,
   (c10_falsy_result_null sampleOkStep sampleSession (PyVal.str "") (by decide)).2.1,
   (c10_falsy_result_null sampleOkStep sampleSession (PyVal.bool false) (by decide)).2.2.1,
   (c10_falsy_result_null sampleOkStep sampleSession (PyVal.list []) (by decide)).2.2.2.1,
   (c10_falsy_result_null sampleOkStep sampleSession (PyVal.int 0) (by decide)).2.2.2.2
     (PyVal.int 7) (by decide)⟩

/-! ## C4 — subscriber isolation -/

/-- **C4**: subscriber isolation.  `start_session` performs its state change
(the new running session is registered and returned) independently of the
subscribers, and the notification fan-out invokes every subscriber with the
same event: the outcome at each index `i` is exactly the `i`-th callback
applied to the event, whatever the callbacks before it returned or raised.  In
particular, if some subscriber raises, every subscriber registered after it is
still invoked with the same event; and since `notify_subscribers` returns the
caught outcomes as values (the source's `try/except Exception` around each
call), no exception propagates to the caller of `start_session`.  This is the
claim with the "some subscriber raises" hypothesis dropped: the property holds
unconditionally, which implies the conditional form. -/
theorem c4_subscriber_isolation (m : WorkflowMonitor) (sid prompt : String) (now : Nat) :
    ((m.start_session sid prompt now).1.get_session sid
        = some (m.start_session sid prompt now).2.1) ∧
    (m.start_session sid prompt now).2.1.status = "running" ∧
    (∀ ev : Event, ∀ subs : List Callback,
      (notify_subscribers subs ev).length = subs.length ∧
      ∀ i : Nat, (notify_subscribers subs ev)[i]? = (subs[i]?).map (fun cb => cb ev)) := by
  refine ⟨dictGet?_insert_self m.sessions sid _, rfl, ?_⟩
  intro ev subs
  constructor
  · induction subs with
    | nil => rfl
    | cons cb rest ih =>
      simp only [notify_subscribers]
      cases cb ev <;> simp [List.length_cons, ih]
  · intro i
    induction subs generalizing i with
    | nil => rfl
    | cons cb rest ih =>
      cases i with
      | zero =>
        simp only [notify_subscribers]
        cases hc : cb ev <;> simp [hc]
      | succ j =>
        simp only [notify_subscribers]
        cases hc : cb ev <;>
          · rw [List.getElem?_cons_succ, List.getElem?_cons_succ]
            exact ih j

/-- Concrete demonstration of the C4 scenario: with a raising first subscriber
and a well-behaved second one, the fan-out still invokes the second subscriber
with the same event and records both outcomes. -/
theorem raising_subscriber_delivery :
    notify_subscribers
        [fun _ => Except.error "subscriber exploded", fun _ => Except.ok ()]
        (Event.session_started sampleSession)
      = [Except.error "subscriber exploded", Except.ok ()] := rfl

/-! ## C8 — serialization of a session (amended) -/

/-- **C8 (amended)**: the serialized view of a session contains the session
identifier, prompt and status, and exactly one entry per step in sequence
order with matching agent name, step name and status; timestamps render via
`isoformat` when set and as null when unset; a truthy stored result renders as
its display-string form; and the `error` field of a step is passed through
verbatim — so an errored step's message is present, and a step whose `error`
field was never set serializes with a null error.  (The unamended clause
"a completed step's error field is null" fails when a step is errored and then
completed, because `complete_step` does not clear `error`; see the
counterexample.) -/
theorem c8_serialization (s : WorkflowSession) :
    (session_to_dict s).session_id = s.session_id ∧
    (session_to_dict s).user_prompt = s.user_prompt ∧
    (session_to_dict s).status = s.status ∧
    (session_to_dict s).steps = s.steps.map step_to_dict ∧
    (session_to_dict s).steps.length = s.steps.length ∧
    (∀ i : Nat, (session_to_dict s).steps[i]? = (s.steps[i]?).map step_to_dict) ∧
    (s.end_time = none → (session_to_dict s).end_time = none) ∧
    (∀ t : Nat, s.end_time = some t → (session_to_dict s).end_time = some (isoformat t)) ∧
    (∀ st : WorkflowStep,
      (step_to_dict st).agent_name = st.agent_name ∧
      (step_to_dict st).step_name = st.step_name ∧
      (step_to_dict st).status = st.status ∧
      (step_to_dict st).start_time = some (isoformat st.start_time) ∧
      (st.end_time = none → (step_to_dict st).end_time = none) ∧
      (∀ t : Nat, st.end_time = some t → (step_to_dict st).end_time = some (isoformat t)) ∧
      (st.result.truthy = true → (step_to_dict st).result = some st.result.pyStr) ∧
      (step_to_dict st).error = st.error) := by
  refine ⟨rfl, rfl, rfl, rfl, by simp [session_to_dict], ?_, ?_, ?_, ?_⟩
  · intro i
    simp [session_to_dict, List.getElem?_map]
  · intro h
    simp [session_to_dict, h]
  · intro t h
    simp [session_to_dict, h]
  · intro st
    refine ⟨rfl, rfl, rfl, rfl, ?_, ?_, ?_, rfl⟩
    · intro h
      simp [step_to_dict, h]
    · intro t h
      simp [step_to_dict, h]
    · intro h
      simp [step_to_dict, h]

/-- Witness for C8: the sample two-step session, with the hypotheses of the
timestamp and result clauses discharged at concrete values. -/
theorem c8_serialization_witness :
    (session_to_dict sampleSession).session_id = "s1" ∧
    (session_to_dict sampleSession).steps.length = 2 ∧
    (session_to_dict sampleSession).end_time = some (isoformat 4) ∧
    (step_to_dict sampleErrStep).error = some "boom" ∧
    (step_to_dict sampleErrStep).end_time = some (isoformat 3) ∧
    (step_to_dict sampleOkStep).result = some "7" ∧
    (step_to_dict sampleOkStep).error = none := by
  obtain ⟨h1, h2, h3, h4, h5, h6, h7, h8, h9⟩ := c8_serialization sampleSession
  obtain ⟨e1, e2, e3, e4, e5, e6, e7, e8⟩ := h9 sampleErrStep
  obtain ⟨o1, o2, o3, o4, o5, o6, o7, o8⟩ := h9 sampleOkStep
  refine ⟨h1.trans rfl, h5.trans rfl, h8 4 rfl, e8.trans rfl, e6 3 rfl, ?_, o8.trans rfl⟩
  exact (o7 (by decide)).trans rfl

/-- Reachable state refuting C8 as literally stated: start a session and a
step, error the step, then call `complete_step`.  `complete_step` overwrites
status and end time but does not clear `error`, so the serialized view shows a
step with status `completed` whose error field is `"boom"`, not null. -/
def c8Monitor : WorkflowMonitor :=
  (runOps freshMonitor
    [Op.start_session "s" "p" 0, Op.start_step "coder" "gen" 1,
     Op.error_step "boom" 2, Op.complete_step (PyVal.int 7) 3]).getD freshMonitor

/-- **C8 counterexample**: in the reachable state `c8Monitor`, the session's
single serialized step has status `completed` and a non-null error message,
contradicting "a completed step's error field is null". -/
theorem c8_counterexample :
    Option.map (fun s => (session_to_dict s).steps.map (fun d => (d.status, d.error)))
        (c8Monitor.get_session "s")
      = some [("completed", some "boom")] := rfl

/-! ## The active-session invariant (C9) -/

/-- Whenever the active-session pointer is set, it names a key present in the
session table whose session has status `running`. -/
def activeOkB (m : WorkflowMonitor) : Bool :=
  match m.active_session_id with
  | none => true
  | some sid =>
    match dictGet? m.sessions sid with
    | some s => s.status == "running"
    | none => false

/-- Unpack `activeOkB` at an effectively-active session id. -/
theorem activeOk_lookup (m : WorkflowMonitor) (sid : String)
    (h : activeOkB m = true) (he : effectiveActive m = some sid) :
    m.active_session_id = some sid ∧
    ∃ s, dictGet? m.sessions sid = some s ∧ s.status = "running" := by
  unfold effectiveActive at he
  unfold activeOkB at h
  cases ha : m.active_session_id with
  | none =>
    rw [ha] at he
    cases he
  | some a =>
    rw [ha] at he h
    have he' : (if a = "" then (none : Option String) else some a) = some sid := he
    have h' : (match dictGet? m.sessions a with
      | some s => s.status == "running"
      | none => false) = true := h
    by_cases hae : a = ""
    · rw [if_pos hae] at he'
      cases he'
    · rw [if_neg hae] at he'
      cases he'
      cases hd : dictGet? m.sessions sid with
      | none =>
        rw [hd] at h'
        cases h'
      | some s =>
        rw [hd] at h'
        refine ⟨rfl, s, rfl, ?_⟩
        exact eq_of_beq h'

/-- A value looked up in the table satisfies any predicate all entries do. -/
theorem all_of_dictGet? {α : Type} (d : List (String × α)) (k : String) (v : α)
    (p : String × α → Bool) (hall : d.all p = true) (hget : dictGet? d k = some v) :
    p (k, v) = true := by
  induction d with
  | nil => cases hget
  | cons q rest ih =>
    obtain ⟨a, b⟩ := q
    simp only [List.all_cons, Bool.and_eq_true] at hall
    simp only [dictGet?] at hget
    by_cases hak : a = k
    · rw [if_pos hak] at hget
      cases hget
      cases hak
      exact hall.1
    · rw [if_neg hak] at hget
      exact ih hall.2 hget

/-! ## Shape lemmas: the exact state each operation produces -/

theorem start_session_run (m : WorkflowMonitor) (sid prompt : String) (now : Nat) :
    m.start_session sid prompt now =
      ({ m with sessions := dictInsert m.sessions sid (newSession sid prompt now),
                active_session_id := some sid },
       newSession sid prompt now,
       [Event.session_started (newSession sid prompt now)]) := rfl

theorem start_step_noop (m : WorkflowMonitor) (agent step : String) (now : Nat)
    (he : effectiveActive m = none) :
    m.start_step agent step now = some (m, []) := by
  simp [WorkflowMonitor.start_step, he]

theorem start_step_run (m : WorkflowMonitor) (agent step : String) (now : Nat)
    (sid : String) (s : WorkflowSession)
    (he : effectiveActive m = some sid) (hd : dictGet? m.sessions sid = some s) :
    m.start_step agent step now = some
      ({ m with sessions :=
          dictInsert m.sessions sid { s with steps := s.steps ++ [newStep agent step now] } },
       [Event.step_started sid (newStep agent step now)]) := by
  simp [WorkflowMonitor.start_step, he, hd]

theorem complete_step_noop (m : WorkflowMonitor) (r : PyVal) (now : Nat)
    (he : effectiveActive m = none) :
    m.complete_step r now = some (m, []) := by
  simp [WorkflowMonitor.complete_step, he]

theorem complete_step_nosteps (m : WorkflowMonitor) (r : PyVal) (now : Nat)
    (sid : String) (s : WorkflowSession)
    (he : effectiveActive m = some sid) (hd : dictGet? m.sessions sid = some s)
    (hl : s.steps.getLast? = none) :
    m.complete_step r now = some (m, []) := by
  simp [WorkflowMonitor.complete_step, he, hd, hl]

theorem complete_step_run (m : WorkflowMonitor) (r : PyVal) (now : Nat)
    (sid : String) (s : WorkflowSession) (last : WorkflowStep)
    (he : effectiveActive m = some sid) (hd : dictGet? m.sessions sid = some s)
    (hl : s.steps.getLast? = some last) :
    m.complete_step r now = some
      ({ m with sessions :=
          dictInsert m.sessions sid { s with steps := updateLast (completeStepUpdate r now) s.steps } },
       [Event.step_completed sid (completeStepUpdate r now last)]) := by
  simp [WorkflowMonitor.complete_step, he, hd, hl]

theorem error_step_noop (m : WorkflowMonitor) (e : String) (now : Nat)
    (he : effectiveActive m = none) :
    m.error_step e now = some (m, []) := by
  simp [WorkflowMonitor.error_step, he]

theorem error_step_nosteps (m : WorkflowMonitor) (e : String) (now : Nat)
    (sid : String) (s : WorkflowSession)
    (he : effectiveActive m = some sid) (hd : dictGet? m.sessions sid = some s)
    (hl : s.steps.getLast? = none) :
    m.error_step e now = some (m, []) := by
  simp [WorkflowMonitor.error_step, he, hd, hl]

theorem error_step_run (m : WorkflowMonitor) (e : String) (now : Nat)
    (sid : String) (s : WorkflowSession) (last : WorkflowStep)
    (he : effectiveActive m = some sid) (hd : dictGet? m.sessions sid = some s)
    (hl : s.steps.getLast? = some last) :
    m.error_step e now = some
      ({ m with sessions :=
          dictInsert m.sessions sid { s with steps := updateLast (errorStepUpdate e now) s.steps } },
       [Event.step_error sid (errorStepUpdate e now last)]) := by
  simp [WorkflowMonitor.error_step, he, hd, hl]

theorem complete_session_noop (m : WorkflowMonitor) (r : PyVal) (now : Nat)
    (he : effectiveActive m = none) :
    m.complete_session r now = some (m, []) := by
  simp [WorkflowMonitor.complete_session, he]

theorem complete_session_run (m : WorkflowMonitor) (r : PyVal) (now : Nat)
    (sid : String) (s : WorkflowSession)
    (he : effectiveActive m = some sid) (hd : dictGet? m.sessions sid = some s) :
    m.complete_session r now = some
      ({ m with sessions := dictInsert m.sessions sid (completeSessionUpdate r now s),
                active_session_id := none },
       [Event.session_completed (completeSessionUpdate r now s)]) := by
  simp [WorkflowMonitor.complete_session, he, hd]

theorem error_session_noop (m : WorkflowMonitor) (e : String) (now : Nat)
    (he : effectiveActive m = none) :
    m.error_session e now = some (m, []) := by
  simp [WorkflowMonitor.error_session, he]

theorem error_session_run (m : WorkflowMonitor) (e : String) (now : Nat)
    (sid : String) (s : WorkflowSession)
    (he : effectiveActive m = some sid) (hd : dictGet? m.sessions sid = some s) :
    m.error_session e now = some
      ({ m with sessions := dictInsert m.sessions sid (errorSessionUpdate now s),
                active_session_id := none },
       [Event.session_error (errorSessionUpdate now s) e]) := by
  simp [WorkflowMonitor.error_session, he, hd]

/-- Replacing the active session's entry by one with the same status keeps the
active-pointer invariant. -/
theorem activeOkB_preserved_update (m : WorkflowMonitor) (sid : String)
    (s s' : WorkflowSession)
    (ha : m.active_session_id = some sid)
    (_hd : dictGet? m.sessions sid = some s)
    (hs : s.status = "running") (hs' : s'.status = s.status) :
    activeOkB { m with sessions := dictInsert m.sessions sid s' } = true := by
  simp [activeOkB, ha, dictGet?_insert_self, hs', hs]

/-- **C9**: the invariant "whenever the active-session pointer is set, it names
a key present in the session table and that session's status is `running`"
holds of the fresh registry and is preserved by every registry operation; and
under it no operation's unguarded session-table lookup can fail — `applyOp`
always returns `some`, never the `KeyError` marker `none`. -/
theorem c9_active_session_invariant (m : WorkflowMonitor) (op : Op)
    (h : activeOkB m = true) :
    activeOkB freshMonitor = true ∧
    (applyOp m op).isSome = true ∧
    activeOkB ((applyOp m op).getD (m, [])).1 = true := by
  refine ⟨rfl, ?_⟩
  cases op with
  | start_session sid prompt now =>
    rw [show applyOp m (Op.start_session sid prompt now)
        = some ((m.start_session sid prompt now).1, (m.start_session sid prompt now).2.2)
        from rfl, start_session_run]
    refine ⟨rfl, ?_⟩
    simp [activeOkB, dictGet?_insert_self, newSession]
  | start_step agent step now =>
    rw [show applyOp m (Op.start_step agent step now) = m.start_step agent step now from rfl]
    cases he : effectiveActive m with
    | none =>
      rw [start_step_noop m agent step now he]
      exact ⟨rfl, h⟩
    | some sid =>
      obtain ⟨ha, s, hd, hs⟩ := activeOk_lookup m sid h he
      rw [start_step_run m agent step now sid s he hd]
      exact ⟨rfl, activeOkB_preserved_update m sid s _ ha hd hs rfl⟩
  | complete_step r now =>
    rw [show applyOp m (Op.complete_step r now) = m.complete_step r now from rfl]
    cases he : effectiveActive m with
    | none =>
      rw [complete_step_noop m r now he]
      exact ⟨rfl, h⟩
    | some sid =>
      obtain ⟨ha, s, hd, hs⟩ := activeOk_lookup m sid h he
      cases hl : s.steps.getLast? with
      | none =>
        rw [complete_step_nosteps m r now sid s he hd hl]
        exact ⟨rfl, h⟩
      | some last =>
        rw [complete_step_run m r now sid s last he hd hl]
        exact ⟨rfl, activeOkB_preserved_update m sid s _ ha hd hs rfl⟩
  | error_step e now =>
    rw [show applyOp m (Op.error_step e now) = m.error_step e now from rfl]
    cases he : effectiveActive m with
    | none =>
      rw [error_step_noop m e now he]
      exact ⟨rfl, h⟩
    | some sid =>
      obtain ⟨ha, s, hd, hs⟩ := activeOk_lookup m sid h he
      cases hl : s.steps.getLast? with
      | none =>
        rw [error_step_nosteps m e now sid s he hd hl]
        exact ⟨rfl, h⟩
      | some last =>
        rw [error_step_run m e now sid s last he hd hl]
        exact ⟨rfl, activeOkB_preserved_update m sid s _ ha hd hs rfl⟩
  | complete_session r now =>
    rw [show applyOp m (Op.complete_session r now) = m.complete_session r now from rfl]
    cases he : effectiveActive m with
    | none =>
      rw [complete_session_noop m r now he]
      exact ⟨rfl, h⟩
    | some sid =>
      obtain ⟨ha, s, hd, hs⟩ := activeOk_lookup m sid h he
      rw [complete_session_run m r now sid s he hd]
      exact ⟨rfl, by simp [activeOkB]⟩
  | error_session e now =>
    rw [show applyOp m (Op.error_session e now) = m.error_session e now from rfl]
    cases he : effectiveActive m with
    | none =>
      rw [error_session_noop m e now he]
      exact ⟨rfl, h⟩
    | some sid =>
      obtain ⟨ha, s, hd, hs⟩ := activeOk_lookup m sid h he
      rw [error_session_run m e now sid s he hd]
      exact ⟨rfl, by simp [activeOkB]⟩

/-- Witness for C9 at a concrete reachable state: after `start_session` on the
fresh registry, the invariant holds, and a further `complete_session` cannot
hit a `KeyError` and preserves the invariant. -/
theorem c9_active_session_invariant_witness :
    activeOkB (freshMonitor.start_session "s1" "prompt" 0).1 = true ∧
    (applyOp (freshMonitor.start_session "s1" "prompt" 0).1
        (Op.complete_session PyVal.none 1)).isSome = true ∧
    activeOkB ((applyOp (freshMonitor.start_session "s1" "prompt" 0).1
        (Op.complete_session PyVal.none 1)).getD
          ((freshMonitor.start_session "s1" "prompt" 0).1, [])).1 = true := by
  have h := c9_active_session_invariant (freshMonitor.start_session "s1" "prompt" 0).1
    (Op.complete_session PyVal.none 1) (by rfl)
  exact ⟨by rfl, h.2.1, h.2.2⟩

/-! ## C1 — terminal sessions are never mutated again -/

/-- A terminal session is never the (running) active session, so its key
differs from the effective active id. -/
theorem terminal_ne_active (m : WorkflowMonitor) (sid aid : String)
    (s sa : WorkflowSession)
    (h2 : dictGet? m.sessions sid = some s)
    (h3 : s.status = "completed" ∨ s.status = "error")
    (hda : dictGet? m.sessions aid = some sa) (hsa : sa.status = "running") :
    aid ≠ sid := by
  intro hq
  subst hq
  rw [h2] at hda
  cases hda
  rcases h3 with hc | hc
  · exact absurd (hc.symm.trans hsa) (by decide)
  · exact absurd (hc.symm.trans hsa) (by decide)

/-- **C1**: once a session's status has become `completed` or `error`, no
subsequent `start_step`, `complete_step`, `error_step`, `complete_session` or
`error_session` (every operation except `start_session`) changes that
session's registry entry at all — in particular neither its status nor its end
time; a second `complete_session` is a no-op for it.  Holds in every state
satisfying the active-pointer invariant (which all reachable states do, by
C9). -/
theorem c1_terminal_session_frozen (m : WorkflowMonitor) (op : Op) (sid : String)
    (s : WorkflowSession)
    (h1 : activeOkB m = true)
    (h2 : dictGet? m.sessions sid = some s)
    (h3 : s.status = "completed" ∨ s.status = "error")
    (h4 : op.isStartSession = false) :
    (applyOp m op).isSome = true ∧
    dictGet? ((applyOp m op).getD (m, [])).1.sessions sid = some s := by
  cases op with
  | start_session a b t => simp [Op.isStartSession] at h4
  | start_step agent step now =>
    rw [show applyOp m (Op.start_step agent step now) = m.start_step agent step now from rfl]
    cases he : effectiveActive m with
    | none =>
      rw [start_step_noop m agent step now he]
      exact ⟨rfl, h2⟩
    | some aid =>
      obtain ⟨ha, sa, hda, hsa⟩ := activeOk_lookup m aid h1 he
      have hne : sid ≠ aid := Ne.symm (terminal_ne_active m sid aid s sa h2 h3 hda hsa)
      rw [start_step_run m agent step now aid sa he hda]
      refine ⟨rfl, ?_⟩
      simp [dictGet?_insert_ne _ _ _ _ hne, h2]
  | complete_step r now =>
    rw [show applyOp m (Op.complete_step r now) = m.complete_step r now from rfl]
    cases he : effectiveActive m with
    | none =>
      rw [complete_step_noop m r now he]
      exact ⟨rfl, h2⟩
    | some aid =>
      obtain ⟨ha, sa, hda, hsa⟩ := activeOk_lookup m aid h1 he
      have hne : sid ≠ aid := Ne.symm (terminal_ne_active m sid aid s sa h2 h3 hda hsa)
      cases hl : sa.steps.getLast? with
      | none =>
        rw [complete_step_nosteps m r now aid sa he hda hl]
        exact ⟨rfl, h2⟩
      | some last =>
        rw [complete_step_run m r now aid sa last he hda hl]
        refine ⟨rfl, ?_⟩
        simp [dictGet?_insert_ne _ _ _ _ hne, h2]
  | error_step e now =>
    rw [show applyOp m (Op.error_step e now) = m.error_step e now from rfl]
    cases he : effectiveActive m with
    | none =>
      rw [error_step_noop m e now he]
      exact ⟨rfl, h2⟩
    | some aid =>
      obtain ⟨ha, sa, hda, hsa⟩ := activeOk_lookup m aid h1 he
      have hne : sid ≠ aid := Ne.symm (terminal_ne_active m sid aid s sa h2 h3 hda hsa)
      cases hl : sa.steps.getLast? with
      | none =>
        rw [error_step_nosteps m e now aid sa he hda hl]
        exact ⟨rfl, h2⟩
      | some last =>
        rw [error_step_run m e now aid sa last he hda hl]
        refine ⟨rfl, ?_⟩
        simp [dictGet?_insert_ne _ _ _ _ hne, h2]
  | complete_session r now =>
    rw [show applyOp m (Op.complete_session r now) = m.complete_session r now from rfl]
    cases he : effectiveActive m with
    | none =>
      rw [complete_session_noop m r now he]
      exact ⟨rfl, h2⟩
    | some aid =>
      obtain ⟨ha, sa, hda, hsa⟩ := activeOk_lookup m aid h1 he
      have hne : sid ≠ aid := Ne.symm (terminal_ne_active m sid aid s sa h2 h3 hda hsa)
      rw [complete_session_run m r now aid sa he hda]
      refine ⟨rfl, ?_⟩
      simp [dictGet?_insert_ne _ _ _ _ hne, h2]
  | error_session e now =>
    rw [show applyOp m (Op.error_session e now) = m.error_session e now from rfl]
    cases he : effectiveActive m with
    | none =>
      rw [error_session_noop m e now he]
      exact ⟨rfl, h2⟩
    | some aid =>
      obtain ⟨ha, sa, hda, hsa⟩ := activeOk_lookup m aid h1 he
      have hne : sid ≠ aid := Ne.symm (terminal_ne_active m sid aid s sa h2 h3 hda hsa)
      rw [error_session_run m e now aid sa he hda]
      refine ⟨rfl, ?_⟩
      simp [dictGet?_insert_ne _ _ _ _ hne, h2]

/-- A reachable registry holding the completed session `"s"` (terminal since
time 1) and a second, running session `"s2"`. -/
def c1Monitor : WorkflowMonitor :=
  (runOps freshMonitor
    [Op.start_session "s" "p" 0, Op.complete_session (PyVal.int 1) 1,
     Op.start_session "s2" "q" 2]).getD freshMonitor

/-- The completed session stored under `"s"` in `c1Monitor`. -/
def c1Session : WorkflowSession :=
  (c1Monitor.get_session "s").getD (newSession "unused" "unused" 0)

/-- Witness for C1: completing the (other, running) session `"s2"` leaves the
terminal session `"s"` untouched — same entry, hence same status and end
time, as after its own first `complete_session`. -/
theorem c1_terminal_session_frozen_witness :
    activeOkB c1Monitor = true ∧
    dictGet? c1Monitor.sessions "s" = some c1Session ∧
    c1Session.status = "completed" ∧
    (applyOp c1Monitor (Op.complete_session (PyVal.int 2) 3)).isSome = true ∧
    dictGet? ((applyOp c1Monitor (Op.complete_session (PyVal.int 2) 3)).getD
        (c1Monitor, [])).1.sessions "s" = some c1Session := by
  have h := c1_terminal_session_frozen c1Monitor (Op.complete_session (PyVal.int 2) 3)
    "s" c1Session (by rfl) (by rfl) (Or.inl (by rfl)) (by rfl)
  exact ⟨by rfl, by rfl, by rfl, h.1, h.2⟩

/-! ## C3 — terminal steps (corrected: only the last step is ever mutable) -/

/-- State after start, one step, `complete_step` at time 2: the step is
terminal (`completed`, end time 2, result 7). -/
def c3MonitorBefore : WorkflowMonitor :=
  (runOps freshMonitor
    [Op.start_session "s" "p" 0, Op.start_step "coder" "gen" 1,
     Op.complete_step (PyVal.int 7) 2]).getD freshMonitor

/-- The same run followed by a further `error_step` at time 3. -/
def c3MonitorAfter : WorkflowMonitor :=
  (runOps freshMonitor
    [Op.start_session "s" "p" 0, Op.start_step "coder" "gen" 1,
     Op.complete_step (PyVal.int 7) 2, Op.error_step "late failure" 3]).getD freshMonitor

/-- **C3 counterexample**: the step had reached the terminal status
`completed` (with end time 2, result 7, no error), yet the subsequent
`error_step` changed its status to `error`, its end time to 3 and stored an
error message — refuting "once terminal, no later registry operation changes
that step's status, end time, result, or error message". -/
theorem c3_counterexample :
    Option.map (fun s => s.steps.map (fun st => (st.status, st.end_time, st.error)))
        (c3MonitorBefore.get_session "s")
      = some [("completed", some 2, none)] ∧
    Option.map (fun s => s.steps.map (fun st => (st.status, st.end_time, st.error)))
        (c3MonitorAfter.get_session "s")
      = some [("error", some 3, some "late failure")] :=
  ⟨rfl, rfl⟩

/-- **C3 (amended)**: no registry operation other than `start_session` ever
changes any step other than the last step of the effectively-active session:
for any session `sid` and index `i`, if step `i` is not the last of its
session, or `sid` is not the effectively-active session, the step at `i`
(hence its status, end time, result and error) is exactly preserved.  A
terminal step can therefore only be altered while it is still the last step
of the active session — where `complete_step`/`error_step` do restamp it, as
the counterexample shows. -/
theorem c3_steps_frozen (m : WorkflowMonitor) (op : Op) (sid : String) (i : Nat)
    (h1 : activeOkB m = true)
    (h4 : op.isStartSession = false)
    (h3 : ((dictGet? m.sessions sid).map
        (fun s => decide (i + 1 < s.steps.length))).getD false = true
      ∨ effectiveActive m ≠ some sid) :
    (applyOp m op).isSome = true ∧
    Option.map (fun s => s.steps[i]?)
        (dictGet? ((applyOp m op).getD (m, [])).1.sessions sid)
      = Option.map (fun s => s.steps[i]?) (dictGet? m.sessions sid) := by
  cases op with
  | start_session a b t => simp [Op.isStartSession] at h4
  | start_step agent step now =>
    rw [show applyOp m (Op.start_step agent step now) = m.start_step agent step now from rfl]
    cases he : effectiveActive m with
    | none =>
      rw [start_step_noop m agent step now he]
      exact ⟨rfl, rfl⟩
    | some aid =>
      obtain ⟨ha, sa, hda, hsa⟩ := activeOk_lookup m aid h1 he
      rw [start_step_run m agent step now aid sa he hda]
      refine ⟨rfl, ?_⟩
      by_cases hq : aid = sid
      · subst hq
        rcases h3 with h3l | h3r
        · rw [hda] at h3l
          have h3n : i + 1 < sa.steps.length := by simpa using h3l
          have hi : i < sa.steps.length := by omega
          simp [dictGet?_insert_self, hda, List.getElem?_append, hi]
        · exact absurd he h3r
      · have hne : sid ≠ aid := fun hh => hq hh.symm
        simp [dictGet?_insert_ne _ _ _ _ hne]
  | complete_step r now =>
    rw [show applyOp m (Op.complete_step r now) = m.complete_step r now from rfl]
    cases he : effectiveActive m with
    | none =>
      rw [complete_step_noop m r now he]
      exact ⟨rfl, rfl⟩
    | some aid =>
      obtain ⟨ha, sa, hda, hsa⟩ := activeOk_lookup m aid h1 he
      cases hl : sa.steps.getLast? with
      | none =>
        rw [complete_step_nosteps m r now aid sa he hda hl]
        exact ⟨rfl, rfl⟩
      | some last =>
        rw [complete_step_run m r now aid sa last he hda hl]
        refine ⟨rfl, ?_⟩
        by_cases hq : aid = sid
        · subst hq
          rcases h3 with h3l | h3r
          · rw [hda] at h3l
            have h3n : i + 1 < sa.steps.length := by simpa using h3l
            simp [dictGet?_insert_self, hda, getElem?_updateLast _ _ _ h3n]
          · exact absurd he h3r
        · have hne : sid ≠ aid := fun hh => hq hh.symm
          simp [dictGet?_insert_ne _ _ _ _ hne]
  | error_step e now =>
    rw [show applyOp m (Op.error_step e now) = m.error_step e now from rfl]
    cases he : effectiveActive m with
    | none =>
      rw [error_step_noop m e now he]
      exact ⟨rfl, rfl⟩
    | some aid =>
      obtain ⟨ha, sa, hda, hsa⟩ := activeOk_lookup m aid h1 he
      cases hl : sa.steps.getLast? with
      | none =>
        rw [error_step_nosteps m e now aid sa he hda hl]
        exact ⟨rfl, rfl⟩
      | some last =>
        rw [error_step_run m e now aid sa last he hda hl]
        refine ⟨rfl, ?_⟩
        by_cases hq : aid = sid
        · subst hq
          rcases h3 with h3l | h3r
          · rw [hda] at h3l
            have h3n : i + 1 < sa.steps.length := by simpa using h3l
            simp [dictGet?_insert_self, hda, getElem?_updateLast _ _ _ h3n]
          · exact absurd he h3r
        · have hne : sid ≠ aid := fun hh => hq hh.symm
          simp [dictGet?_insert_ne _ _ _ _ hne]
  | complete_session r now =>
    rw [show applyOp m (Op.complete_session r now) = m.complete_session r now from rfl]
    cases he : effectiveActive m with
    | none =>
      rw [complete_session_noop m r now he]
      exact ⟨rfl, rfl⟩
    | some aid =>
      obtain ⟨ha, sa, hda, hsa⟩ := activeOk_lookup m aid h1 he
      rw [complete_session_run m r now aid sa he hda]
      refine ⟨rfl, ?_⟩
      by_cases hq : aid = sid
      · subst hq
        simp [dictGet?_insert_self, hda, completeSessionUpdate]
      · have hne : sid ≠ aid := fun hh => hq hh.symm
        simp [dictGet?_insert_ne _ _ _ _ hne]
  | error_session e now =>
    rw [show applyOp m (Op.error_session e now) = m.error_session e now from rfl]
    cases he : effectiveActive m with
    | none =>
      rw [error_session_noop m e now he]
      exact ⟨rfl, rfl⟩
    | some aid =>
      obtain ⟨ha, sa, hda, hsa⟩ := activeOk_lookup m aid h1 he
      rw [error_session_run m e now aid sa he hda]
      refine ⟨rfl, ?_⟩
      by_cases hq : aid = sid
      · subst hq
        simp [dictGet?_insert_self, hda, errorSessionUpdate]
      · have hne : sid ≠ aid := fun hh => hq hh.symm
        simp [dictGet?_insert_ne _ _ _ _ hne]

/-- Registry with a session whose first step is already terminal and a second
step running; used to witness C3. -/
def c3WitnessMonitor : WorkflowMonitor :=
  (runOps freshMonitor
    [Op.start_session "s" "p" 0, Op.start_step "coder" "gen" 1,
     Op.complete_step (PyVal.int 7) 2, Op.start_step "qa" "review" 3]).getD freshMonitor

/-- Witness for C3 (amended): with two steps present, erroring the current
(last) step leaves step 0 — the terminal, non-last one — exactly unchanged. -/
theorem c3_steps_frozen_witness :
    activeOkB c3WitnessMonitor = true ∧
    ((dictGet? c3WitnessMonitor.sessions "s").map
        (fun s => decide (0 + 1 < s.steps.length))).getD false = true ∧
    (applyOp c3WitnessMonitor (Op.error_step "late" 4)).isSome = true ∧
    Option.map (fun s => s.steps[0]?)
        (dictGet? ((applyOp c3WitnessMonitor (Op.error_step "late" 4)).getD
          (c3WitnessMonitor, [])).1.sessions "s")
      = Option.map (fun s => s.steps[0]?) (dictGet? c3WitnessMonitor.sessions "s") := by
  have h := c3_steps_frozen c3WitnessMonitor (Op.error_step "late" 4) "s" 0
    (by rfl) (by rfl) (Or.inl (by rfl))
  exact ⟨by rfl, by rfl, h.1, h.2⟩

/-! ## C5 — error reporting (corrected: `error_session` stores no message) -/

/-- The `(session, error)` payload of a `session_error` notification, reduced
to the session's status and the message. -/
def sessionErrorPayload : Event → Option (String × String)
  | .session_error s e => some (s.status, e)
  | _ => none

/-- Registry with one running session `"s"` holding one running step. -/
def c5Monitor : WorkflowMonitor :=
  (runOps freshMonitor
    [Op.start_session "s" "p" 0, Op.start_step "coder" "gen" 1]).getD freshMonitor

/-- **C5 counterexample**: the registry state after `error_session` is the
same whatever message is passed — the monitor resulting from
`error_session "boom"` equals the one from a completely different message, so
the registry does not store the message, and in particular neither
`get_session` nor the serialization view can show it (the serialized session
has no error field at all). -/
theorem c5_counterexample :
    Option.map Prod.fst (c5Monitor.error_session "boom" 2)
      = Option.map Prod.fst (c5Monitor.error_session "a wholly different message" 2) := rfl

/-- **C5 (amended)**: `error_step` stores the message verbatim on the current
(last) step, which is then visible through `get_session` and the serialized
view in `error` status together with the stored message; `error_session`
marks the session `error` (visible through the query surface) but stores no
message — the message reaches only the `session_error` notification payload,
and the resulting registry state is independent of it. -/
theorem c5_error_reporting (m : WorkflowMonitor) (sid : String)
    (msg msg2 : String) (now : Nat)
    (he : effectiveActive m = some sid)
    (hs : (dictGet? m.sessions sid).map (fun s => s.steps.isEmpty) = some false) :
    (m.error_step msg now).isSome = true ∧
    Option.map (fun s => s.steps.getLast?.map
        (fun st => (st.status, st.error, (step_to_dict st).error)))
        (WorkflowMonitor.get_session ((m.error_step msg now).getD (m, [])).1 sid)
      = some (some ("error", some msg, some msg)) ∧
    (m.error_session msg now).isSome = true ∧
    Option.map (fun s => s.status)
        (WorkflowMonitor.get_session ((m.error_session msg now).getD (m, [])).1 sid)
      = some "error" ∧
    Option.map Prod.fst (m.error_session msg now)
      = Option.map Prod.fst (m.error_session msg2 now) ∧
    Option.map (fun p => p.2.map sessionErrorPayload) (m.error_session msg now)
      = some [some ("error", msg)] := by
  cases hdd : dictGet? m.sessions sid with
  | none =>
    rw [hdd] at hs
    cases hs
  | some s =>
    rw [hdd] at hs
    have hemp : s.steps.isEmpty = false := by
      simpa using hs
    have hne : s.steps ≠ [] := by
      intro hh
      rw [hh] at hemp
      simp at hemp
    have hsome : s.steps.getLast?.isSome = true := List.getLast?_isSome.mpr hne
    obtain ⟨last, hl⟩ := Option.isSome_iff_exists.mp hsome
    refine ⟨?_, ?_, ?_, ?_, ?_, ?_⟩
    · rw [error_step_run m msg now sid s last he hdd hl]
      rfl
    · rw [error_step_run m msg now sid s last he hdd hl]
      simp [WorkflowMonitor.get_session, dictGet?_insert_self, getLast?_updateLast, hl,
        errorStepUpdate, step_to_dict]
    · rw [error_session_run m msg now sid s he hdd]
      rfl
    · rw [error_session_run m msg now sid s he hdd]
      simp [WorkflowMonitor.get_session, dictGet?_insert_self, errorSessionUpdate]
    · rw [error_session_run m msg now sid s he hdd, error_session_run m msg2 now sid s he hdd]
      rfl
    · rw [error_session_run m msg now sid s he hdd]
      simp [sessionErrorPayload, errorSessionUpdate]

/-- Witness for C5 at the concrete registry `c5Monitor`. -/
theorem c5_error_reporting_witness :
    effectiveActive c5Monitor = some "s" ∧
    (dictGet? c5Monitor.sessions "s").map (fun s => s.steps.isEmpty) = some false ∧
    Option.map (fun s => s.steps.getLast?.map
        (fun st => (st.status, st.error, (step_to_dict st).error)))
        (WorkflowMonitor.get_session ((c5Monitor.error_step "boom" 2).getD
          (c5Monitor, [])).1 "s")
      = some (some ("error", some "boom", some "boom")) ∧
    Option.map (fun p => p.2.map sessionErrorPayload) (c5Monitor.error_session "boom" 2)
      = some [some ("error", "boom")] := by
  have h := c5_error_reporting c5Monitor "s" "boom" "other" 2 (by rfl) (by rfl)
  exact ⟨by rfl, by rfl, h.2.1, h.2.2.2.2.2⟩

/-! ## C2 — step ordering (corrected: holds only under caller discipline) -/

/-- A step status the registry can ever produce. -/
def stepStatusOk (st : WorkflowStep) : Bool :=
  st.status == "running" || st.status == "completed" || st.status == "error"

/-- A terminal step status. -/
def stepTerminal (st : WorkflowStep) : Bool :=
  st.status == "completed" || st.status == "error"

/-- The step-ordering invariant for one session: every step (domain check)
has one of the three statuses, and every step except possibly the last is
terminal — i.e. at most the last step may be `running`. -/
def sessionStepsOk (s : WorkflowSession) : Bool :=
  s.steps.all stepStatusOk && s.steps.dropLast.all stepTerminal

/-- The step-ordering invariant over the whole registry. -/
def allSessionsOk (m : WorkflowMonitor) : Bool :=
  m.sessions.all (fun p => sessionStepsOk p.2)

/-- Caller discipline for one `start_step` call: the active session (if any)
has no steps yet or its last step is not running.  The registry itself never
checks this. -/
def stepGuard (m : WorkflowMonitor) : Bool :=
  match effectiveActive m with
  | none => true
  | some sid =>
    match dictGet? m.sessions sid with
    | none => true
    | some s =>
      match s.steps.getLast? with
      | none => true
      | some st => st.status != "running"

/-- A disciplined run: every `start_step` is issued only in a state
satisfying `stepGuard` (i.e. the caller completed or errored the previous
step first). -/
def disciplined : WorkflowMonitor → List Op → Bool
  | _, [] => true
  | m, op :: rest =>
    ((!op.isStartStep) || stepGuard m) &&
    (match applyOp m op with
     | some p => disciplined p.1 rest
     | none => true)

/-- If all non-last elements satisfy `p` and the last (if any) does too, the
whole list does. -/
theorem all_of_dropLast_getLast {α : Type} (p : α → Bool) (l : List α)
    (h1 : l.dropLast.all p = true)
    (h2 : ∀ x, l.getLast? = some x → p x = true) :
    l.all p = true := by
  cases hn : l.getLast? with
  | none =>
    rw [List.getLast?_eq_none_iff.mp hn]
    rfl
  | some x =>
    have hne : l ≠ [] := by
      intro hh
      rw [hh] at hn
      cases hn
    have hgl : l.getLast? = some (l.getLast hne) := List.getLast?_eq_getLast l hne
    rw [hn] at hgl
    injection hgl with hx
    rw [← List.dropLast_append_getLast hne, List.all_append, h1]
    simp [← hx, h2 x hn]

/-- The registry with state `"s"` : one session, two running steps — reached
by calling `start_step` twice without completing the first step. -/
def c2Monitor : WorkflowMonitor :=
  (runOps freshMonitor
    [Op.start_session "s" "p" 0, Op.start_step "a" "x" 1,
     Op.start_step "a" "y" 2]).getD freshMonitor

/-- **C2 counterexample**: after `start_session; start_step; start_step`
(each a plain registry operation), the stored session has two steps both in
`running` status — a non-last step is `running`, refuting "at most the last
element of the session's step sequence has status running at every
observation point", and refuting "a new step is appended only when no step is
currently running" (the second append happened while the first step ran). -/
theorem c2_counterexample :
    Option.map (fun s => (sessionStepsOk s, s.steps.map (fun st => st.status)))
        (c2Monitor.get_session "s")
      = some (false, ["running", "running"]) := rfl

/-- One operation preserves the step-ordering invariant, provided a
`start_step` is only issued under the caller discipline `stepGuard`. -/
theorem allSessionsOk_applyOp (m : WorkflowMonitor) (op : Op)
    (hm : allSessionsOk m = true)
    (hg : op.isStartStep = true → stepGuard m = true) :
    allSessionsOk ((applyOp m op).getD (m, [])).1 = true := by
  cases op with
  | start_session sid prompt now =>
    rw [show applyOp m (Op.start_session sid prompt now)
        = some ((m.start_session sid prompt now).1, (m.start_session sid prompt now).2.2)
        from rfl, start_session_run]
    show (dictInsert m.sessions sid (newSession sid prompt now)).all
      (fun p => sessionStepsOk p.2) = true
    exact all_dictInsert _ _ _ _ hm (by rfl)
  | start_step agent step now =>
    rw [show applyOp m (Op.start_step agent step now) = m.start_step agent step now from rfl]
    cases he : effectiveActive m with
    | none =>
      rw [start_step_noop m agent step now he]
      exact hm
    | some sid =>
      cases hdd : dictGet? m.sessions sid with
      | none =>
        rw [show m.start_step agent step now = none from by
          simp [WorkflowMonitor.start_step, he, hdd]]
        exact hm
      | some s =>
        have hg1 : stepGuard m = true := hg rfl
        have hg2 : (match dictGet? m.sessions sid with
            | none => true
            | some s =>
              match s.steps.getLast? with
              | none => true
              | some st => st.status != "running") = true := by
          have hx : stepGuard m
              = (match dictGet? m.sessions sid with
                 | none => true
                 | some s =>
                   match s.steps.getLast? with
                   | none => true
                   | some st => st.status != "running") := by
            unfold stepGuard
            rw [he]
          rw [← hx]
          exact hg1
        rw [hdd] at hg2
        have hg3 : (match s.steps.getLast? with
            | none => true
            | some st => st.status != "running") = true := hg2
        have hss : sessionStepsOk s = true :=
          all_of_dictGet? m.sessions sid s _ hm hdd
        have hpair : s.steps.all stepStatusOk = true ∧
            s.steps.dropLast.all stepTerminal = true := by
          simpa [sessionStepsOk, Bool.and_eq_true] using hss
        have hall : s.steps.all stepTerminal = true := by
          apply all_of_dropLast_getLast stepTerminal s.steps hpair.2
          intro x hx
          have hne : s.steps ≠ [] := by
            intro hh
            rw [hh] at hx
            cases hx
          have hgl : s.steps.getLast? = some (s.steps.getLast hne) :=
            List.getLast?_eq_getLast s.steps hne
          rw [hx] at hgl
          injection hgl with hxe
          have hxm : x ∈ s.steps := by
            rw [hxe]
            exact List.getLast_mem hne
          have hxs : stepStatusOk x = true :=
            List.all_eq_true.mp hpair.1 x hxm
          have hxr : (x.status != "running") = true := by
            rw [hx] at hg3
            exact hg3
          have hbeq : (x.status == "running") = false := by
            simpa [bne] using hxr
          simpa [stepTerminal, stepStatusOk, hbeq] using hxs
        rw [start_step_run m agent step now sid s he hdd]
        show (dictInsert m.sessions sid
            { s with steps := s.steps ++ [newStep agent step now] }).all
          (fun p => sessionStepsOk p.2) = true
        apply all_dictInsert _ _ _ _ hm
        show sessionStepsOk { s with steps := s.steps ++ [newStep agent step now] } = true
        have hterm : s.steps.all stepStatusOk = true := hpair.1
        simp [sessionStepsOk, List.all_append, List.dropLast_concat, hterm, hall,
          newStep, stepStatusOk]
  | complete_step r now =>
    rw [show applyOp m (Op.complete_step r now) = m.complete_step r now from rfl]
    cases he : effectiveActive m with
    | none =>
      rw [complete_step_noop m r now he]
      exact hm
    | some sid =>
      cases hdd : dictGet? m.sessions sid with
      | none =>
        rw [show m.complete_step r now = none from by
          simp [WorkflowMonitor.complete_step, he, hdd]]
        exact hm
      | some s =>
        cases hl : s.steps.getLast? with
        | none =>
          rw [complete_step_nosteps m r now sid s he hdd hl]
          exact hm
        | some last =>
          have hss : sessionStepsOk s = true :=
            all_of_dictGet? m.sessions sid s _ hm hdd
          have hpair : s.steps.all stepStatusOk = true ∧
              s.steps.dropLast.all stepTerminal = true := by
            simpa [sessionStepsOk, Bool.and_eq_true] using hss
          rw [complete_step_run m r now sid s last he hdd hl]
          show (dictInsert m.sessions sid
              { s with steps := updateLast (completeStepUpdate r now) s.steps }).all
            (fun p => sessionStepsOk p.2) = true
          apply all_dictInsert _ _ _ _ hm
          show sessionStepsOk
            { s with steps := updateLast (completeStepUpdate r now) s.steps } = true
          have h1 : (updateLast (completeStepUpdate r now) s.steps).all stepStatusOk = true :=
            all_updateLast _ _ _ hpair.1
              (fun x => by simp [completeStepUpdate, stepStatusOk])
          have h2 : (updateLast (completeStepUpdate r now) s.steps).dropLast.all
              stepTerminal = true := by
            rw [dropLast_updateLast]
            exact hpair.2
          simp [sessionStepsOk, h1, h2]
  | error_step e now =>
    rw [show applyOp m (Op.error_step e now) = m.error_step e now from rfl]
    cases he : effectiveActive m with
    | none =>
      rw [error_step_noop m e now he]
      exact hm
    | some sid =>
      cases hdd : dictGet? m.sessions sid with
      | none =>
        rw [show m.error_step e now = none from by
          simp [WorkflowMonitor.error_step, he, hdd]]
        exact hm
      | some s =>
        cases hl : s.steps.getLast? with
        | none =>
          rw [error_step_nosteps m e now sid s he hdd hl]
          exact hm
        | some last =>
          have hss : sessionStepsOk s = true :=
            all_of_dictGet? m.sessions sid s _ hm hdd
          have hpair : s.steps.all stepStatusOk = true ∧
              s.steps.dropLast.all stepTerminal = true := by
            simpa [sessionStepsOk, Bool.and_eq_true] using hss
          rw [error_step_run m e now sid s last he hdd hl]
          show (dictInsert m.sessions sid
              { s with steps := updateLast (errorStepUpdate e now) s.steps }).all
            (fun p => sessionStepsOk p.2) = true
          apply all_dictInsert _ _ _ _ hm
          show sessionStepsOk
            { s with steps := updateLast (errorStepUpdate e now) s.steps } = true
          have h1 : (updateLast (errorStepUpdate e now) s.steps).all stepStatusOk = true :=
            all_updateLast _ _ _ hpair.1
              (fun x => by simp [errorStepUpdate, stepStatusOk])
          have h2 : (updateLast (errorStepUpdate e now) s.steps).dropLast.all
              stepTerminal = true := by
            rw [dropLast_updateLast]
            exact hpair.2
          simp [sessionStepsOk, h1, h2]
  | complete_session r now =>
    rw [show applyOp m (Op.complete_session r now) = m.complete_session r now from rfl]
    cases he : effectiveActive m with
    | none =>
      rw [complete_session_noop m r now he]
      exact hm
    | some sid =>
      cases hdd : dictGet? m.sessions sid with
      | none =>
        rw [show m.complete_session r now = none from by
          simp [WorkflowMonitor.complete_session, he, hdd]]
        exact hm
      | some s =>
        have hss : sessionStepsOk s = true :=
          all_of_dictGet? m.sessions sid s _ hm hdd
        rw [complete_session_run m r now sid s he hdd]
        show (dictInsert m.sessions sid (completeSessionUpdate r now s)).all
          (fun p => sessionStepsOk p.2) = true
        apply all_dictInsert _ _ _ _ hm
        show sessionStepsOk (completeSessionUpdate r now s) = true
        simpa [sessionStepsOk, completeSessionUpdate] using hss
  | error_session e now =>
    rw [show applyOp m (Op.error_session e now) = m.error_session e now from rfl]
    cases he : effectiveActive m with
    | none =>
      rw [error_session_noop m e now he]
      exact hm
    | some sid =>
      cases hdd : dictGet? m.sessions sid with
      | none =>
        rw [show m.error_session e now = none from by
          simp [WorkflowMonitor.error_session, he, hdd]]
        exact hm
      | some s =>
        have hss : sessionStepsOk s = true :=
          all_of_dictGet? m.sessions sid s _ hm hdd
        rw [error_session_run m e now sid s he hdd]
        show (dictInsert m.sessions sid (errorSessionUpdate now s)).all
          (fun p => sessionStepsOk p.2) = true
        apply all_dictInsert _ _ _ _ hm
        show sessionStepsOk (errorSessionUpdate now s) = true
        simpa [sessionStepsOk, errorSessionUpdate] using hss

/-- The step-ordering invariant is preserved along any disciplined run. -/
theorem allSessionsOk_runOps (ops : List Op) (m m' : WorkflowMonitor)
    (hm : allSessionsOk m = true) (hd : disciplined m ops = true)
    (hr : runOps m ops = some m') :
    allSessionsOk m' = true := by
  induction ops generalizing m with
  | nil =>
    rw [show runOps m [] = some m from rfl] at hr
    injection hr with h
    exact h ▸ hm
  | cons op rest ih =>
    simp only [disciplined, Bool.and_eq_true] at hd
    obtain ⟨hg, hrest⟩ := hd
    cases hap : applyOp m op with
    | none =>
      rw [show runOps m (op :: rest) = none from by simp [runOps, hap]] at hr
      cases hr
    | some p =>
      have hg' : op.isStartStep = true → stepGuard m = true := by
        intro hh
        rw [hh] at hg
        simpa using hg
      have hstep : allSessionsOk p.1 = true := by
        have h := allSessionsOk_applyOp m op hm hg'
        rw [hap] at h
        exact h
      have hrest' : disciplined p.1 rest = true := by
        rw [hap] at hrest
        exact hrest
      rw [show runOps m (op :: rest) = runOps p.1 rest from by simp [runOps, hap]] at hr
      exact ih p.1 hstep hrest' hr

/-- **C2 (amended)**: the registry never enforces the step-ordering invariant
itself (`start_step` appends unconditionally, see the counterexample), but
under caller discipline — every `start_step` issued only when the active
session has no steps or its last step is not `running` — every session in
every state reached from a fresh registry satisfies: at most the last element
of its step sequence has status `running`, and every earlier step is
`completed` or `error`. -/
theorem c2_step_ordering (ops : List Op)
    (h : disciplined freshMonitor ops = true) :
    allSessionsOk ((runOps freshMonitor ops).getD freshMonitor) = true ∧
    ∀ sid s,
      dictGet? ((runOps freshMonitor ops).getD freshMonitor).sessions sid = some s →
        s.steps.dropLast.all stepTerminal = true ∧
        ∀ st, st ∈ s.steps.dropLast →
          st.status = "completed" ∨ st.status = "error" := by
  have hall : allSessionsOk ((runOps freshMonitor ops).getD freshMonitor) = true := by
    cases hrun : runOps freshMonitor ops with
    | none => rfl
    | some mF => exact allSessionsOk_runOps ops freshMonitor mF (by rfl) h hrun
  refine ⟨hall, ?_⟩
  intro sid s hs
  have hss : sessionStepsOk s = true := all_of_dictGet? _ _ _ _ hall hs
  have hpair : s.steps.all stepStatusOk = true ∧
      s.steps.dropLast.all stepTerminal = true := by
    simpa [sessionStepsOk, Bool.and_eq_true] using hss
  refine ⟨hpair.2, ?_⟩
  intro st hst
  have hterm := List.all_eq_true.mp hpair.2 st hst
  simpa [stepTerminal] using hterm

/-- A disciplined run: the first step is completed before the second starts. -/
def c2WitnessOps : List Op :=
  [Op.start_session "s" "p" 0, Op.start_step "a" "x" 1,
   Op.complete_step PyVal.none 2, Op.start_step "a" "y" 3]

/-- Witness for C2 (amended) on a concrete disciplined run: its final state
satisfies the step-ordering invariant, and the stored session's non-last
steps are all terminal. -/
theorem c2_step_ordering_witness :
    disciplined freshMonitor c2WitnessOps = true ∧
    allSessionsOk ((runOps freshMonitor c2WitnessOps).getD freshMonitor) = true :=
  ⟨by rfl, (c2_step_ordering c2WitnessOps (by rfl)).1⟩

/-! ## C7 — recency ordering of `get_recent_sessions` -/

theorem insertDesc_perm (s : WorkflowSession) (l : List WorkflowSession) :
    (insertDesc s l).Perm (s :: l) := by
  induction l with
  | nil => exact List.Perm.refl _
  | cons t ts ih =>
    simp only [insertDesc]
    by_cases h : t.start_time ≤ s.start_time
    · rw [if_pos h]
    · rw [if_neg h]
      exact (ih.cons t).trans (List.Perm.swap s t ts)

theorem sortSessions_perm (l : List WorkflowSession) :
    (sortSessions l).Perm l := by
  induction l with
  | nil => exact List.Perm.refl _
  | cons x xs ih =>
    exact (insertDesc_perm x (sortSessions xs)).trans (ih.cons x)

theorem pairwise_insertDesc (s : WorkflowSession) (l : List WorkflowSession)
    (h : l.Pairwise (fun a b => b.start_time ≤ a.start_time)) :
    (insertDesc s l).Pairwise (fun a b => b.start_time ≤ a.start_time) := by
  induction l with
  | nil => simp [insertDesc]
  | cons t ts ih =>
    rw [List.pairwise_cons] at h
    obtain ⟨ht, hts⟩ := h
    simp only [insertDesc]
    by_cases hc : t.start_time ≤ s.start_time
    · rw [if_pos hc, List.pairwise_cons]
      refine ⟨?_, ?_⟩
      · intro y hy
        rcases List.mem_cons.mp hy with hy' | hy'
        · rw [hy']
          exact hc
        · exact le_trans (ht y hy') hc
      · rw [List.pairwise_cons]
        exact ⟨ht, hts⟩
    · rw [if_neg hc, List.pairwise_cons]
      refine ⟨?_, ih hts⟩
      intro y hy
      have hy' := (insertDesc_perm s ts).mem_iff.mp hy
      rcases List.mem_cons.mp hy' with hy'' | hy''
      · rw [hy'']
        exact le_of_not_le hc
      · exact ht y hy''

theorem pairwise_sortSessions (l : List WorkflowSession) :
    (sortSessions l).Pairwise (fun a b => b.start_time ≤ a.start_time) := by
  induction l with
  | nil => simp [sortSessions]
  | cons x xs ih => exact pairwise_insertDesc x (sortSessions xs) ih

theorem filter_insertDesc_eq (k : Nat) (s : WorkflowSession)
    (l : List WorkflowSession) (hs : s.start_time = k) :
    (insertDesc s l).filter (fun x => x.start_time == k)
      = s :: l.filter (fun x => x.start_time == k) := by
  have hsk : (s.start_time == k) = true := by
    simp [hs]
  induction l with
  | nil => simp [insertDesc, List.filter, hsk]
  | cons t ts ih =>
    simp only [insertDesc]
    by_cases hc : t.start_time ≤ s.start_time
    · rw [if_pos hc, List.filter_cons, List.filter_cons]
      simp [hsk]
    · rw [if_neg hc]
      have htk : (t.start_time == k) = false := by
        simp only [beq_eq_false_iff_ne, ne_eq]
        intro hh
        rw [hs] at hc
        exact hc (le_of_eq hh)
      rw [List.filter_cons, List.filter_cons]
      simp only [htk]
      simp [ih]

theorem filter_insertDesc_ne (k : Nat) (s : WorkflowSession)
    (l : List WorkflowSession) (hs : s.start_time ≠ k) :
    (insertDesc s l).filter (fun x => x.start_time == k)
      = l.filter (fun x => x.start_time == k) := by
  have hsk : (s.start_time == k) = false := by
    simp [hs]
  induction l with
  | nil => simp [insertDesc, List.filter, hsk]
  | cons t ts ih =>
    simp only [insertDesc]
    by_cases hc : t.start_time ≤ s.start_time
    · rw [if_pos hc, List.filter_cons, List.filter_cons]
      simp [hsk]
    · rw [if_neg hc]
      rw [List.filter_cons, List.filter_cons]
      by_cases htk : (t.start_time == k) = true
      · simp only [htk]
        simp [ih]
      · have htk' : (t.start_time == k) = false := by
          simpa using htk
        simp only [htk']
        simp [ih]

/-- Stability: the subsequence of sessions with any given start time is
unchanged by the sort — ties stay in insertion order. -/
theorem filter_sortSessions (k : Nat) (l : List WorkflowSession) :
    (sortSessions l).filter (fun x => x.start_time == k)
      = l.filter (fun x => x.start_time == k) := by
  induction l with
  | nil => rfl
  | cons x xs ih =>
    show (insertDesc x (sortSessions xs)).filter (fun x => x.start_time == k)
      = (x :: xs).filter (fun x => x.start_time == k)
    by_cases hx : x.start_time = k
    · rw [filter_insertDesc_eq k x (sortSessions xs) hx, ih,
        List.filter_cons_of_pos (by simp [hx])]
    · rw [filter_insertDesc_ne k x (sortSessions xs) hx, ih,
        List.filter_cons_of_neg (by simp [hx])]

/-- **C7**: `get_recent_sessions limit` returns at most `limit` sessions,
sorted by start time with the most recent first (pairwise descending); the
underlying sorted list is a permutation of the registry's sessions in
insertion order, and ties are deterministic: for every start time `k`, the
sessions with that start time appear in exactly their insertion order
(filter-stability), which with sortedness determines the output uniquely. -/
theorem c7_recent_sessions (m : WorkflowMonitor) (limit : Nat) :
    (m.get_recent_sessions limit).length ≤ limit ∧
    (m.get_recent_sessions limit).Pairwise
      (fun a b => b.start_time ≤ a.start_time) ∧
    m.get_recent_sessions limit
      = (sortSessions (m.sessions.map Prod.snd)).take limit ∧
    (sortSessions (m.sessions.map Prod.snd)).Perm (m.sessions.map Prod.snd) ∧
    (∀ k : Nat,
      (sortSessions (m.sessions.map Prod.snd)).filter (fun x => x.start_time == k)
        = (m.sessions.map Prod.snd).filter (fun x => x.start_time == k)) := by
  refine ⟨?_, ?_, rfl, sortSessions_perm _, fun k => filter_sortSessions k _⟩
  · exact List.length_take_le limit _
  · exact List.Pairwise.sublist (List.take_sublist limit _) (pairwise_sortSessions _)
